import Mathlib

/-!
A shallow embedding of the MCP client core (src/mcp/mcp-client/engine.py and
src/mcp/mcp-client/services.py) in Lean 4, together with theorems that settle
the specification claims about it.

Modelling conventions:
* Python JSON-like values are the inductive `Json`; the truthiness test used by
  the source (`if x:`) is `Json.truthy`.
* Values returned by MCP tool calls can be arbitrary Python objects; they are
  modelled by `Pyv`, where `Pyv.other r` is any value that is neither a string
  nor a mapping, carrying its `str()` rendering `r`.
* A Python function that may raise is modelled with `Except`; the error string
  (or `ExnInfo` for tool calls, which also carries the traceback rendering)
  stands for the raised exception.
* The LLM gateway is an oracle: a pure function from the conversation history
  (and the tool configuration that the engine passes along) to the outcome of
  one `generate_response` call.  `LLMResp.raise e` is a raising call.
* `QueryResult` exposes, besides the returned answer string, the final
  conversation history and the number of LLM calls as observables of the run.
-/

namespace MCP

/-- JSON-like Python values (dict, list, str, int, bool, None). -/
inductive Json where
  | null : Json
  | bool (b : Bool) : Json
  | num (n : Int) : Json
  | str (s : String) : Json
  | arr (xs : List Json) : Json
  | obj (fields : List (String × Json)) : Json

/-- Python truthiness of a `Json` value. -/
def Json.truthy : Json → Bool
  | .null => false
  | .bool b => b
  | .num n => n != 0
  | .str s => s != ""
  | .arr xs => !xs.isEmpty
  | .obj fs => !fs.isEmpty

/-- Is the value a JSON string?  Mirrors `isinstance(x, str)`. -/
def Json.isStr : Json → Bool
  | .str _ => true
  | _ => false

/-- A Python value as produced by an MCP tool call: a string, a mapping, or
any other object (carrying its `str()` rendering). -/
inductive Pyv where
  | str (s : String) : Pyv
  | dict (m : List (String × Pyv)) : Pyv
  | other (repr : String) : Pyv

/-- An MCP tool descriptor (`mcp.Tool`): name, optional description and a
JSON-schema-like `inputSchema`.  `Json.null` stands for an absent field. -/
structure McpTool where
  name : String
  description : Json
  inputSchema : Json

/-- The GenAI function declaration dictionary built by
`LLMService._convert_mcp_tool_to_genai_function`. -/
structure FunctionDecl where
  name : String
  description : String
  parameters : Json

/-- The six JSON-schema type names accepted by the translator
(`valid_types` in services.py line 87). -/
def validTypes : List String := ["string", "number", "integer", "boolean", "array", "object"]

/-- Python `s.lower()` (ASCII, which covers JSON-schema type names). -/
def pyLower (s : String) : String :=
  String.mk (s.data.map Char.toLower)

/-- The property schema built for one well-formed property entry
(services.py lines 86-101): recognized type (lowered, defaulting to
`string` when absent or unrecognized), then optional description, enum
and, for arrays, the items schema with its absent-case default. -/
def buildPropSchema (fields : List (String × Json)) (t0 : String) : Json :=
  let t1 := pyLower t0
  let prop_type := if validTypes.contains t1 then t1 else "string"
  let s1 : List (String × Json) := [("type", Json.str prop_type)]
  let s2 :=
    match fields.lookup "description" with
    | some d => s1 ++ [("description", d)]
    | none => s1
  let s3 :=
    match fields.lookup "enum" with
    | some (Json.arr es) => s2 ++ [("enum", Json.arr es)]
    | _ => s2
  let s4 :=
    if prop_type = "array" then
      s3 ++ [("items", (fields.lookup "items").getD (Json.obj [("type", Json.str "string")]))]
    else s3
  Json.obj s4

/-- Translation of one entry of the `"properties"` mapping
(services.py lines 82-101).  `.ok none` is a skipped malformed (non-dict)
entry; `.error` models the `AttributeError` raised by calling `.lower()`
on a non-string `"type"` value; an absent type defaults to `string`. -/
def convertProp (schema_prop : Json) : Except String (Option Json) :=
  match schema_prop with
  | .obj fields =>
    match fields.lookup "type" with
    | some (Json.str t0) => .ok (some (buildPropSchema fields t0))
    | some _ => .error "AttributeError: lower called on a non-string type value"
    | none => .ok (some (buildPropSchema fields "string"))
  | _ => .ok none

/-- Translation of the whole `"properties"` mapping, in order; the first
raising entry aborts the translation (services.py lines 81-101). -/
def convertProps : List (String × Json) → Except String (List (String × Json))
  | [] => .ok []
  | (n, sp) :: rest =>
    match convertProp sp with
    | .error e => .error e
    | .ok r =>
      match convertProps rest with
      | .error e => .error e
      | .ok tail =>
        match r with
        | some schema => .ok ((n, schema) :: tail)
        | none => .ok tail

/-- Attaching the `required` key to the parameters schema when the
`required` value is a truthy list of strings (services.py lines 103-105). -/
def addRequired (fields : List (String × Json)) (base : List (String × Json)) : Json :=
  match (fields.lookup "required").getD (Json.arr []) with
  | .arr (r :: rs) =>
    if (r :: rs).all Json.isStr then Json.obj (base ++ [("required", Json.arr (r :: rs))])
    else Json.obj base
  | _ => Json.obj base

/-- Converting a properties list then attaching the `required` list when it
is a truthy list of strings (services.py lines 102-105). -/
def buildParams (fields : List (String × Json)) (propList : List (String × Json)) :
    Except String Json :=
  match convertProps propList with
  | .error e => .error e
  | .ok genaiProps =>
    .ok (addRequired fields [("type", Json.str "object"), ("properties", Json.obj genaiProps)])

/-- The whole `parameters_schema` construction from a truthy dict
`inputSchema` (services.py lines 80-105).  The `.error` case models the
`AttributeError` raised by `.items()` when the value stored under
`"properties"` is not a dict. -/
def convertParams (fields : List (String × Json)) : Except String Json :=
  match fields.lookup "properties" with
  | some (Json.obj propList) => buildParams fields propList
  | none => buildParams fields []
  | some _ => .error "AttributeError: the properties value has no items attribute"

/-- Python `str.strip()` whitespace set. -/
def pyWs (c : Char) : Bool :=
  c = ' ' || c = '\t' || c = '\n' || c = '\r' || c = '\x0b' || c = '\x0c'

/-- Python `s.strip()`: remove leading and trailing whitespace. -/
def pyStrip (s : String) : String :=
  String.mk (((s.data.dropWhile pyWs).reverse.dropWhile pyWs).reverse)

/-- Python `"".join(parts)`. -/
def pyJoin (parts : List String) : String :=
  parts.foldl (fun a b => a ++ b) ""

/-- The parameters schema for one tool: the empty default when the input
schema is not a truthy dict, otherwise the full construction
(services.py lines 79-107). -/
def toolParamsE (t : McpTool) : Except String Json :=
  match t.inputSchema with
  | .obj [] => .ok (Json.obj [("type", Json.str "object"), ("properties", Json.obj [])])
  | .obj fields => convertParams fields
  | _ => .ok (Json.obj [("type", Json.str "object"), ("properties", Json.obj [])])

/-- The `description` substitution of services.py lines 109-112: keep the
descriptor description only when it is a string with non-whitespace
content, otherwise use the generated default. -/
def toolDescription (t : McpTool) : String :=
  match t.description with
  | .str d => if pyStrip d = "" then "Tool to perform " ++ t.name else d
  | _ => "Tool to perform " ++ t.name

/-- Model of `LLMService._convert_mcp_tool_to_genai_function` (services.py
lines 77-118).  A `.error` result models an uncaught exception escaping the
function. -/
def convertTool (t : McpTool) : Except String FunctionDecl :=
  (toolParamsE t).map (fun parameters => ⟨t.name, toolDescription t, parameters⟩)

/-- Model of `LLMService.prepare_tools_for_llm` (services.py lines 120-143):
skip
unnamed tools, convert the rest, catching and dropping any tool whose
conversion raises; `none` models returning `None` (no tool config). -/
def prepare_tools_for_llm (tools : List McpTool) : Option (List FunctionDecl) :=
  match tools with
  | [] => none
  | _ :: _ =>
    let decls := tools.filterMap (fun t =>
      if t.name ≠ "" then
        match convertTool t with
        | .ok d => some d
        | .error _ => none
      else none)
    match decls with
    | [] => none
    | _ :: _ => some decls

/-- Does an `Except` hold a success? -/
def isOkE {α β : Type} : Except α β → Bool
  | .ok _ => true
  | .error _ => false

/-- One property entry is convertible without raising: it is either not a
dict (it gets skipped), or its `"type"` value, when present, is a string. -/
def propEntryOk (sp : Json) : Bool :=
  match sp with
  | .obj fields =>
    match fields.lookup "type" with
    | some (Json.str _) => true
    | some _ => false
    | none => true
  | _ => true

/-- A tool descriptor on which `convertTool` does not raise: whenever the
input schema is a truthy dict, the `"properties"` value (if present) is a
dict all of whose entries satisfy `propEntryOk`. -/
def schemaOk (t : McpTool) : Bool :=
  match t.inputSchema with
  | .obj [] => true
  | .obj fields =>
    match fields.lookup "properties" with
    | none => true
    | some (Json.obj propList) => propList.all (fun p => propEntryOk p.2)
    | some _ => false
  | _ => true

/-- A GenAI function call requested by the model. -/
structure FunctionCall where
  name : String
  args : List (String × Json)

/-- A GenAI function response fed back to the model. -/
structure FunctionResponse where
  name : String
  response : List (String × Pyv)

/-- A GenAI `Part`: text, function call and function response are all
optional fields (the source tests each with Python truthiness). -/
structure Part where
  text : Option String
  function_call : Option FunctionCall
  function_response : Option FunctionResponse

/-- A GenAI `Content`: one conversation turn. -/
structure Content where
  role : String
  parts : List Part

/-- A raised Python exception: its message and its traceback rendering. -/
structure ExnInfo where
  msg : String
  tb : String

/-- A connected MCP service: its server name, the tools it lists, and the
behaviour of `call_tool` (which may raise). -/
structure Service where
  name : String
  tools : List McpTool
  call : String → List (String × Json) → Except ExnInfo Pyv

/-- Outcome of one `LLMService.generate_response` call: a raised exception,
or a response with its candidate list and its aggregate `text` property. -/
inductive LLMResp where
  | raise (e : String) : LLMResp
  | ok (candidates : List Content) (textProp : Option String) : LLMResp

/-- The LLM gateway as a deterministic oracle over the conversation history
and the tool configuration passed by the engine. -/
abbrev LLMOracle := List Content → Option (List FunctionDecl) → LLMResp

/-- The workflow configuration fields read by `process_user_query`
(`max_conversation_turns` already has its default 5 applied by the
configuration loader). -/
structure WorkflowConfig where
  workflow_name : String
  mcp_servers_used : List String
  initial_prompt_template : String
  max_conversation_turns : Nat

/-- Observables of one `process_user_query` run: the returned answer, the
final conversation history and the number of LLM gateway calls made. -/
structure QueryResult where
  answer : String
  history : List Content
  llmCalls : Nat

/-- Mirrors `any(t.name == tool_name for t in service_tools)` (engine.py line 125). -/
def serviceDeclares (s : Service) (toolName : String) : Bool :=
  s.tools.any (fun t => t.name == toolName)

/-- The tool-resolution scan of engine.py lines 123-128: iterate the
connected services in registration order and keep the first one that lists
the requested tool name. -/
def findServiceForTool (services : List Service) (toolName : String) : Option Service :=
  services.find? (fun s => serviceDeclares s toolName)

/-- Wrapping of a successful raw tool result (engine.py lines 138-141):
a mapping passes through unchanged, anything else becomes
`{"output": value}` with the raw value. -/
def wrapToolResult (r : Pyv) : List (String × Pyv) :=
  match r with
  | .dict m => m
  | r2 => [("output", r2)]

/-- The bracketed marker appended when `generate_response` raises
(engine.py lines 83-86). -/
def gatewayErrMarker (wf e : String) : String :=
  "\n[Error communicating with LLM in workflow \x27" ++ wf ++ "\x27: " ++ e ++ "]"

/-- Marker appended when the gateway returns zero candidates (line 92). -/
def noCandidatesMarker : String := "\n[AI model returned no response candidates.]"

/-- Marker appended when a terminal turn produced no text at all (line 171). -/
def noFurtherMarker : String := "[AI model provided no further text or actions.]"

/-- Error payload message for an unresolved tool (engine.py line 149). -/
def toolNotFoundMsg (wf n : String) : String :=
  "Tool \x27" ++ n ++ "\x27 requested by LLM but not found in any active MCP service for workflow \x27" ++ wf ++ "\x27."

/-- Error payload message for a raising tool invocation (engine.py line 144). -/
def toolExecErrMsg (n sname e : String) : String :=
  "Error executing MCP tool \x27" ++ n ++ "\x27 via \x27" ++ sname ++ "\x27: " ++ e

/-- Handling of the first `function_call` Part of a model turn
(engine.py lines 110-159): resolve the tool name, invoke the service,
wrap the result or the error, and build the user-role Turn that carries
the `function_response` Part. -/
def handleToolCall (wf : String) (services : List Service) (fc : FunctionCall) : Content :=
  let payload : List (String × Pyv) :=
    match findServiceForTool services fc.name with
    | some svc =>
      match svc.call fc.name fc.args with
      | .ok r => wrapToolResult r
      | .error ex => [("error", Pyv.str (toolExecErrMsg fc.name svc.name ex.msg)),
                      ("details", Pyv.str ex.tb)]
    | none => [("error", Pyv.str (toolNotFoundMsg wf fc.name))]
  ⟨"user", [⟨none, none, some ⟨fc.name, payload⟩⟩]⟩

/-- Result of scanning one model turn: either no function call was found
(with the non-whitespace text fragments accumulated in Part order), or the
first function call was handled, producing the tool-response Turn and
stopping the scan. -/
inductive ScanResult where
  | terminal (texts : List String) : ScanResult
  | toolCall (turn : Content) : ScanResult

/-- The Part scan of engine.py lines 102-159: accumulate truthy text Parts
whose stripped form is non-empty, and stop at the first `function_call`
Part, handling it. -/
def scanParts (wf : String) (services : List Service) : List Part → List String → ScanResult
  | [], acc => .terminal acc
  | p :: rest, acc =>
    let acc1 :=
      match p.text with
      | some s => if s ≠ "" then (if pyStrip s ≠ "" then acc ++ [s] else acc) else acc
      | none => acc
    match p.function_call with
    | some fc => .toolCall (handleToolCall wf services fc)
    | none => scanParts wf services rest acc1

/-- Mirrors `any(p.strip() for p in parts)` (engine.py lines 165, 169, 176). -/
def anyNonWs (parts : List String) : Bool :=
  parts.any (fun p => pyStrip p != "")

/-- The for-else branch of the turn loop (engine.py lines 174-179): the
loop exhausted `max_turns` without a break, so a max-turns marker is
appended. -/
def maxTurnsExit (parts : List String) : List String :=
  if anyNonWs parts then parts ++ ["\n[Max interaction turns reached.]"]
  else parts ++ ["\n[Max interaction turns reached. No final text generated.]"]

/-- The turn loop of `process_user_query` (engine.py lines 76-183),
structurally recursive on the remaining turn budget.  `parts` is
`final_response_parts`, `calls` counts LLM gateway calls made so far. -/
def runTurns (wf : String) (llm : LLMOracle) (tc : Option (List FunctionDecl))
    (services : List Service) : Nat → List Content → List String → Nat → QueryResult
  | 0, history, parts, calls =>
    ⟨pyStrip (pyJoin (maxTurnsExit parts)), history, calls⟩
  | Nat.succ fuel, history, parts, calls =>
    match llm history tc with
    | .raise e =>
      ⟨pyStrip (pyJoin (parts ++ [gatewayErrMarker wf e])), history, calls + 1⟩
    | .ok [] _ =>
      ⟨pyStrip (pyJoin (parts ++ [noCandidatesMarker])), history, calls + 1⟩
    | .ok (c :: _) tp =>
      let history1 := history ++ [c]
      match scanParts wf services c.parts [] with
      | .toolCall toolTurn =>
        runTurns wf llm tc services fuel (history1 ++ [toolTurn]) parts (calls + 1)
      | .terminal texts =>
        let parts1 :=
          match texts with
          | _ :: _ => parts ++ texts
          | [] =>
            if anyNonWs parts then parts
            else
              match tp with
              | some t => if t ≠ "" then (if pyStrip t ≠ "" then parts ++ [t] else parts) else parts
              | none => parts
        let parts2 :=
          match parts1 with
          | [] => parts1 ++ [noFurtherMarker]
          | _ :: _ => if anyNonWs parts1 then parts1 else parts1 ++ [noFurtherMarker]
        ⟨pyStrip (pyJoin parts2), history1, calls + 1⟩

/-- The literal left-brace character. -/
def openBrace : Char := Char.ofNat 123

/-- The literal right-brace character. -/
def closeBrace : Char := Char.ofNat 125

/-- Read a replacement-field name up to the closing brace, for the model of
`str.format`; `none` models the `ValueError` raised on an unterminated or
nested field. -/
def splitField : List Char → Option (List Char × List Char)
  | [] => none
  | c :: rest =>
    if c = openBrace then none
    else if c = closeBrace then some ([], rest)
    else
      match splitField rest with
      | some (f, r) => some (c :: f, r)
      | none => none

/-- One scanning step of the model of `template.format(query=...)`: doubled
braces are literals, the field `query` is substituted, any other field
raises (`KeyError` for an unknown name, `ValueError` for a stray brace).
The fuel argument only bounds the recursion; `pyFormat` supplies enough
for it never to run out. -/
def formatAux (q : String) : Nat → List Char → Except String (List Char)
  | _, [] => .ok []
  | 0, _ :: _ => .error "format fuel exhausted"
  | Nat.succ fuel, c :: rest =>
    if c = openBrace then
      match rest with
      | [] => .error "ValueError: single brace encountered in format string"
      | c2 :: rest2 =>
        if c2 = openBrace then
          match formatAux q fuel rest2 with
          | .ok out => .ok (openBrace :: out)
          | .error e => .error e
        else
          match splitField rest with
          | none => .error "ValueError: expected closing brace before end of string"
          | some (f, r) =>
            if f = "query".data then
              match formatAux q fuel r with
              | .ok out => .ok (q.data ++ out)
              | .error e => .error e
            else .error ("KeyError: \x27" ++ String.mk f ++ "\x27")
    else if c = closeBrace then
      match rest with
      | [] => .error "ValueError: single brace encountered in format string"
      | c2 :: rest2 =>
        if c2 = closeBrace then
          match formatAux q fuel rest2 with
          | .ok out => .ok (closeBrace :: out)
          | .error e => .error e
        else .error "ValueError: single brace encountered in format string"
    else
      match formatAux q fuel rest with
      | .ok out => .ok (c :: out)
      | .error e => .error e

/-- Model of Python `template.format(query=q)` as used on engine.py line
65: substitute `q` for the `query` replacement field; raise on any other
replacement field or on stray braces; a template without any field is
returned unchanged. -/
def pyFormat (tmpl q : String) : Except String String :=
  match formatAux q (tmpl.data.length + 1) tmpl.data with
  | .ok cs => .ok (String.mk cs)
  | .error e => .error e

/-- Model of `WorkflowEngine.process_user_query` (engine.py lines 59-183).
A `.error` result models an exception escaping the method (only the
initial-prompt formatting can raise). -/
def process_user_query (cfg : WorkflowConfig) (services : List Service)
    (llm : LLMOracle) (user_query : String) : Except String QueryResult :=
  if services.isEmpty && !cfg.mcp_servers_used.isEmpty then
    .ok ⟨"Error: Workflow services are not initialized.", [], 0⟩
  else
    match pyFormat cfg.initial_prompt_template user_query with
    | .error e => .error e
    | .ok initial_prompt =>
      let history0 : List Content := [⟨"user", [⟨some initial_prompt, none, none⟩]⟩]
      let tc := prepare_tools_for_llm (services.map (fun s => s.tools)).flatten
      .ok (runTurns cfg.workflow_name llm tc services cfg.max_conversation_turns history0 [] 0)

/-- Projection: the answer of a run that returned normally. -/
def answerOf (r : Except String QueryResult) : Option String :=
  match r with
  | .ok res => some res.answer
  | .error _ => none

/-- Projection: the number of LLM calls of a run (0 when it raised). -/
def llmCallsOf (r : Except String QueryResult) : Nat :=
  match r with
  | .ok res => res.llmCalls
  | .error _ => 0

/-- A Part holding only text. -/
def mkText (s : String) : Part := ⟨some s, none, none⟩

/-- A Part holding only a function call. -/
def mkCall (n : String) (args : List (String × Json)) : Part := ⟨none, some ⟨n, args⟩, none⟩

/-- A Part holding only a function response. -/
def mkResp (n : String) (payload : List (String × Pyv)) : Part := ⟨none, none, some ⟨n, payload⟩⟩

/-- A workflow configuration with workflow name `w1`. -/
def mkCfg (tmpl : String) (used : List String) (maxTurns : Nat) : WorkflowConfig :=
  ⟨"w1", used, tmpl, maxTurns⟩

/-- A small tool descriptor used by the concrete scenarios. -/
def toolT : McpTool := ⟨"t", Json.str "a tool", Json.null⟩

/-- A service listing tool `t` whose invocation returns the string `res`. -/
def toolService : Service := ⟨"s1", [toolT], fun _ _ => Except.ok (Pyv.str "res")⟩

/-- A service listing tool `t` whose invocation returns the given value. -/
def resultService (v : Pyv) : Service := ⟨"s1", [toolT], fun _ _ => Except.ok v⟩

/-- A service listing no tools. -/
def svcA : Service := ⟨"a", [], fun _ _ => Except.ok (Pyv.str "")⟩

/-- A second service listing tool `t`. -/
def svcB : Service := ⟨"b", [toolT], fun _ _ => Except.ok (Pyv.str "fromB")⟩

/-- A third service also listing tool `t` (shadowed by `svcB`). -/
def svcC : Service := ⟨"c", [toolT], fun _ _ => Except.ok (Pyv.str "fromC")⟩

/-- Oracle: turn 1 answers with text `a` followed by a call of tool `t`;
turn 2 answers with texts `b` and `c`. -/
def oracleAm (a b c : String) : LLMOracle := fun h _ =>
  match h with
  | [_] => .ok [⟨"model", [mkText a, mkCall "t" []]⟩] none
  | [_, _, _] => .ok [⟨"model", [mkText b, mkText c]⟩] none
  | _ => .ok [] none

/-- Oracle: turn 1 requests the unknown tool `missing`; turn 2 answers
with the text `done`. -/
def oracleMissing : LLMOracle := fun h _ =>
  match h with
  | [_] => .ok [⟨"model", [mkCall "missing" []]⟩] none
  | [_, _, _] => .ok [⟨"model", [mkText "done"]⟩] none
  | _ => .ok [] none

/-- Oracle: turn 1 requests tool `t`; turn 2 answers with the text `done`. -/
def oracleFC : LLMOracle := fun h _ =>
  match h with
  | [_] => .ok [⟨"model", [mkCall "t" []]⟩] none
  | [_, _, _] => .ok [⟨"model", [mkText "done"]⟩] none
  | _ => .ok [] none

/-- Oracle: a single pure-text answer `hi`. -/
def textOracle : LLMOracle := fun h _ =>
  match h with
  | [_] => .ok [⟨"model", [mkText "hi"]⟩] none
  | _ => .ok [] none

/-- Oracle whose every call raises with message `e`. -/
def raiseOracle (e : String) : LLMOracle := fun _ _ => .raise e

/-- Oracle whose every call returns zero candidates. -/
def nullOracle : LLMOracle := fun _ _ => .ok [] none

/-- A service listing tool `t` whose invocation raises with the given
message and traceback. -/
def failService (msg tb : String) : Service :=
  ⟨"s1", [toolT], fun _ _ => Except.error ⟨msg, tb⟩⟩

/-- A tool descriptor whose array property has a malformed (string-valued)
`items` entry. -/
def badItemsTool : McpTool :=
  ⟨"t7", Json.str "d",
    Json.obj [("properties",
      Json.obj [("a", Json.obj [("type", Json.str "array"), ("items", Json.str "bad")])])]⟩

/-- A tool descriptor whose `properties` value is a number, not a dict. -/
def badPropsTool : McpTool := ⟨"tb", Json.str "d", Json.obj [("properties", Json.num 5)]⟩

/-- Mapping over an `Except` preserves success. -/
theorem isOkE_map {α β γ : Type} (f : β → γ) (x : Except α β) :
    isOkE (x.map f) = isOkE x := by
  cases x <;> rfl

/-- One property entry converts without raising exactly when `propEntryOk`
says so. -/
theorem convertProp_isOk (sp : Json) : isOkE (convertProp sp) = propEntryOk sp := by
  cases sp <;> try rfl
  case obj fields =>
    simp only [convertProp, propEntryOk]
    cases h : fields.lookup "type" with
    | none => rfl
    | some v => cases v <;> rfl

/-- A properties list converts without raising exactly when every entry is
convertible. -/
theorem convertProps_isOk (l : List (String × Json)) :
    isOkE (convertProps l) = l.all (fun p => propEntryOk p.2) := by
  induction l with
  | nil => rfl
  | cons hd tl ih =>
    obtain ⟨n, sp⟩ := hd
    have h1 := convertProp_isOk sp
    simp only [convertProps, List.all_cons]
    cases hc : convertProp sp with
    | error e =>
      rw [hc] at h1
      simp only [isOkE] at h1
      rw [← h1, Bool.false_and]
      rfl
    | ok r =>
      rw [hc] at h1
      simp only [isOkE] at h1
      rw [← h1, Bool.true_and]
      cases hr : convertProps tl with
      | error e => rw [hr] at ih; cases r <;> exact ih
      | ok tail => rw [hr] at ih; cases r <;> exact ih

/-- Attaching the required list never raises. -/
theorem buildParams_isOk (fields propList : List (String × Json)) :
    isOkE (buildParams fields propList) = isOkE (convertProps propList) := by
  simp only [buildParams]
  cases h : convertProps propList <;> rfl

/-- C6 (corrected): the Schema Translator is not total.  It degrades
gracefully on most malformed descriptors (non-dict input schema, non-dict
property entries, unknown type names, malformed enum, required or items
values), but it raises in exactly two situations, characterized by
`schemaOk`: a truthy dict input schema whose `properties` value is not a
dict, or a property entry whose `type` value is present and not a string.
`prepare_tools_for_llm` catches these exceptions and skips the tool. -/
theorem C6_translate_totality_boundary (t : McpTool) :
    isOkE (convertTool t) = schemaOk t := by
  simp only [convertTool]
  rw [isOkE_map]
  simp only [toolParamsE, schemaOk]
  cases hs : t.inputSchema <;> try rfl
  case obj fields =>
    cases fields with
    | nil => rfl
    | cons f fs =>
      simp only [convertParams]
      cases h : (f :: fs).lookup "properties" with
      | none => rw [buildParams_isOk]; rfl
      | some v =>
        cases v <;> try rfl
        case obj propList => rw [buildParams_isOk, convertProps_isOk]

/-- C6 witness: `schemaOk` holds for an assortedly malformed but tolerated
descriptor, and the translator indeed succeeds on it. -/
theorem C6_translate_totality_boundary_witness :
    isOkE (convertTool ⟨"tw", Json.null,
      Json.obj [("properties", Json.obj [("p", Json.obj [("type", Json.str "weird")]),
                                          ("q", Json.num 3)]),
                ("required", Json.str "p")]⟩) =
    schemaOk ⟨"tw", Json.null,
      Json.obj [("properties", Json.obj [("p", Json.obj [("type", Json.str "weird")]),
                                          ("q", Json.num 3)]),
                ("required", Json.str "p")]⟩ :=
  C6_translate_totality_boundary _

/-- C6 counterexample: a descriptor whose `properties` value is a number
makes the translator raise an `AttributeError` instead of returning a
declaration, refuting totality as claimed. -/
theorem C6_counterexample :
    convertTool badPropsTool =
      .error "AttributeError: the properties value has no items attribute" := rfl

/-- C7: evaluating the translator at the failing input.  The array
property `a` carries the malformed (string-valued) `items` entry `bad`;
the translated declaration copies that malformed value through unchanged
instead of the documented `type: string` default. -/
theorem C7_malformed_items_passthrough :
    convertTool badItemsTool =
      .ok ⟨"t7", "d",
        Json.obj [("type", Json.str "object"),
          ("properties",
            Json.obj [("a", Json.obj [("type", Json.str "array"),
                                      ("items", Json.str "bad")])])]⟩ ∧
    Json.str "bad" ≠ Json.obj [("type", Json.str "string")] :=
  ⟨rfl, fun h => Json.noConfusion h⟩

/-- C10: when no services are connected but the workflow lists required
servers, `process_user_query` returns the fixed error string without
raising, with an empty conversation and zero LLM calls. -/
theorem C10_uninitialized_services (cfg : WorkflowConfig) (llm : LLMOracle) (q : String)
    (h : cfg.mcp_servers_used ≠ []) :
    process_user_query cfg [] llm q =
      .ok ⟨"Error: Workflow services are not initialized.", [], 0⟩ := by
  have hne : cfg.mcp_servers_used.isEmpty = false := by
    cases hm : cfg.mcp_servers_used with
    | nil => exact absurd hm h
    | cons a l => rfl
  simp [process_user_query, hne]

/-- C10 witness at a concrete configuration and oracle. -/
theorem C10_uninitialized_services_witness :
    (mkCfg "{query}" ["s1"] 3).mcp_servers_used ≠ [] ∧
    process_user_query (mkCfg "{query}" ["s1"] 3) [] textOracle "hi" =
      .ok ⟨"Error: Workflow services are not initialized.", [], 0⟩ :=
  ⟨by simp [mkCfg], C10_uninitialized_services (mkCfg "{query}" ["s1"] 3) textOracle "hi"
    (by simp [mkCfg])⟩

/-- C5: tool-name resolution is deterministic (it is a pure function of
the ordered service list) and first-wins: whatever services follow it,
the first service in registration order that declares the requested tool
name is the one resolution returns, so a later service declaring the same
name is shadowed. -/
theorem C5_first_wins_resolution :
    (∀ (l : List Service) (n : String), findServiceForTool l n = findServiceForTool l n) ∧
    (∀ (l1 : List Service) (s : Service) (l2 : List Service) (n : String),
      serviceDeclares s n = true →
      (∀ s0 ∈ l1, serviceDeclares s0 n = false) →
      findServiceForTool (l1 ++ s :: l2) n = some s) := by
  constructor
  · intro l n; rfl
  · intro l1 s l2 n hs
    induction l1 with
    | nil =>
      intro _
      simpa only [List.nil_append, findServiceForTool] using
        @List.find?_cons_of_pos Service (fun s0 => serviceDeclares s0 n) s l2 hs
    | cons a t ih =>
      intro hnone
      have ha : serviceDeclares a n = false := hnone a (List.mem_cons_self a t)
      have hrest : ∀ s0 ∈ t, serviceDeclares s0 n = false :=
        fun s0 hm => hnone s0 (List.mem_cons_of_mem a hm)
      have step : findServiceForTool ((a :: t) ++ s :: l2) n =
          findServiceForTool (t ++ s :: l2) n := by
        simp only [findServiceForTool, List.cons_append]
        exact List.find?_cons_of_neg _ (by simp [ha])
      rw [step]
      exact ih hrest

/-- Each loop iteration makes exactly one LLM call, so the call counter
grows by at most the remaining turn budget. -/
theorem runTurns_calls_le (wf : String) (llm : LLMOracle) (tc : Option (List FunctionDecl))
    (services : List Service) :
    ∀ (fuel : Nat) (h : List Content) (parts : List String) (calls : Nat),
      (runTurns wf llm tc services fuel h parts calls).llmCalls ≤ calls + fuel := by
  intro fuel
  induction fuel with
  | zero => intro h parts calls; simp [runTurns]
  | succ n ih =>
    intro h parts calls
    simp only [runTurns]
    split
    · show calls + 1 ≤ calls + (n + 1)
      omega
    · show calls + 1 ≤ calls + (n + 1)
      omega
    · split
      · calc (runTurns wf llm tc services n _ parts (calls + 1)).llmCalls
            ≤ (calls + 1) + n := ih _ _ _
          _ ≤ calls + (n + 1) := by omega
      · show calls + 1 ≤ calls + (n + 1)
        omega

/-- C4: the turn loop makes at most `max_conversation_turns` LLM calls for
any query; and in the concrete scenario with a one-turn budget and a model
response carrying a function call, exactly one LLM call is made, the tool
result Turn is appended, and the run ends with the max-turns marker and no
second call. -/
theorem C4_turn_budget :
    (∀ (cfg : WorkflowConfig) (services : List Service) (llm : LLMOracle) (q : String),
      llmCallsOf (process_user_query cfg services llm q) ≤ cfg.max_conversation_turns) ∧
    process_user_query (mkCfg "{query}" ["s1"] 1) [toolService] oracleFC "hi" =
      .ok ⟨"[Max interaction turns reached. No final text generated.]",
        [⟨"user", [mkText "hi"]⟩, ⟨"model", [mkCall "t" []]⟩,
         ⟨"user", [mkResp "t" [("output", Pyv.str "res")]]⟩], 1⟩ := by
  refine ⟨?_, rfl⟩
  intro cfg services llm q
  cases hif : services.isEmpty && !cfg.mcp_servers_used.isEmpty with
  | true => simp [process_user_query, hif, llmCallsOf]
  | false =>
    simp only [process_user_query, hif, Bool.false_eq_true, if_false]
    cases hf : pyFormat cfg.initial_prompt_template q with
    | error e => simp [llmCallsOf]
    | ok ip =>
      simp only [llmCallsOf]
      simpa using runTurns_calls_le cfg.workflow_name llm _ services
        cfg.max_conversation_turns _ [] 0

/-- Names of the function calls carried by a Turn. -/
def fcNames (c : Content) : List String :=
  c.parts.filterMap (fun p => p.function_call.map (fun fc => fc.name))

/-- Names of the function responses carried by a Turn. -/
def frNames (c : Content) : List String :=
  c.parts.filterMap (fun p => p.function_response.map (fun fr => fr.name))

/-- The conversation-ordering invariant: every Turn carrying a function
response for name `n` is preceded, strictly earlier in the sequence, by a
model-role Turn carrying a function call of the same name. -/
def goodHistory (h : List Content) : Prop :=
  ∀ (i : Nat) (c : Content) (n : String), h[i]? = some c → n ∈ frNames c →
    ∃ (j : Nat) (m : Content), j < i ∧ h[j]? = some m ∧ m.role = "model" ∧ n ∈ fcNames m

/-- The empty conversation satisfies the invariant. -/
theorem goodHistory_nil : goodHistory [] := by
  intro i c n hi
  simp at hi

/-- A conversation of Turns carrying no function response satisfies the
invariant. -/
theorem goodHistory_of_no_fr (h : List Content) (hf : ∀ c ∈ h, frNames c = []) :
    goodHistory h := by
  intro i c n hi hn
  have hmem : c ∈ h := by
    obtain ⟨hlt, hg⟩ := List.getElem?_eq_some.mp hi
    exact hg ▸ List.getElem_mem hlt
  rw [hf c hmem] at hn
  exact absurd hn (List.not_mem_nil n)

/-- Appending a Turn whose function responses are all answered by some
model Turn already present preserves the invariant. -/
theorem goodHistory_snoc (h : List Content) (c : Content)
    (hg : goodHistory h)
    (hc : ∀ n ∈ frNames c, ∃ m ∈ h, m.role = "model" ∧ n ∈ fcNames m) :
    goodHistory (h ++ [c]) := by
  intro i c0 n hi hn
  rcases Nat.lt_or_ge i h.length with hlt | hge
  · rw [List.getElem?_append, if_pos hlt] at hi
    obtain ⟨j, m, hj, hjm, hrole, hfc⟩ := hg i c0 n hi hn
    refine ⟨j, m, hj, ?_, hrole, hfc⟩
    rw [List.getElem?_append, if_pos (lt_trans hj hlt)]
    exact hjm
  · have hlen : i < (h ++ [c]).length := (List.getElem?_eq_some.mp hi).1
    rw [List.length_append, List.length_singleton] at hlen
    have hieq : i = h.length := by omega
    subst hieq
    rw [List.getElem?_concat_length] at hi
    injection hi with hi
    subst hi
    obtain ⟨m, hm, hrole, hfc⟩ := hc n hn
    obtain ⟨j, hjm⟩ := List.mem_iff_getElem?.mp hm
    have hjlt : j < h.length := (List.getElem?_eq_some.mp hjm).1
    refine ⟨j, m, hjlt, ?_, hrole, hfc⟩
    rw [List.getElem?_append, if_pos hjlt]
    exact hjm

/-- A `toolCall` scan outcome comes from some Part of the scanned list
carrying a function call, and the produced Turn is its handler output. -/
theorem scanParts_toolCall (wf : String) (svcs : List Service) :
    ∀ (ps : List Part) (acc : List String) (t : Content),
      scanParts wf svcs ps acc = .toolCall t →
      ∃ p ∈ ps, ∃ fc, p.function_call = some fc ∧ t = handleToolCall wf svcs fc := by
  intro ps
  induction ps with
  | nil =>
    intro acc t hcontra
    exact absurd hcontra (by simp [scanParts])
  | cons p rest ih =>
    intro acc t hsc
    simp only [scanParts] at hsc
    cases hfc : p.function_call with
    | some fc =>
      rw [hfc] at hsc
      injection hsc with hsc
      exact ⟨p, List.mem_cons_self p rest, fc, hfc, hsc.symm⟩
    | none =>
      rw [hfc] at hsc
      obtain ⟨p1, hp1, fc, hfc1, ht⟩ := ih _ t hsc
      exact ⟨p1, List.mem_cons_of_mem p hp1, fc, hfc1, ht⟩

/-- The tool-response Turn answers exactly the name of the handled call. -/
theorem frNames_handleToolCall (wf : String) (svcs : List Service) (fc : FunctionCall) :
    frNames (handleToolCall wf svcs fc) = [fc.name] := rfl

/-- A Part with a function call contributes its name to `fcNames`. -/
theorem fcNames_of_part (c : Content) (p : Part) (fc : FunctionCall)
    (hp : p ∈ c.parts) (hfc : p.function_call = some fc) : fc.name ∈ fcNames c :=
  List.mem_filterMap.mpr ⟨p, hp, by rw [hfc]; rfl⟩

/-- The loop preserves the conversation-ordering invariant and only ever
appends Turns, for any oracle whose candidates are model-role Turns free
of function-response Parts. -/
theorem runTurns_good (wf : String) (llm : LLMOracle) (tc : Option (List FunctionDecl))
    (svcs : List Service)
    (H : ∀ (h : List Content) (tcx : Option (List FunctionDecl)) (cands : List Content)
       (tp : Option String), llm h tcx = .ok cands tp →
       ∀ c ∈ cands, c.role = "model" ∧ frNames c = []) :
    ∀ (fuel : Nat) (h : List Content) (parts : List String) (calls : Nat),
      goodHistory h →
      goodHistory ((runTurns wf llm tc svcs fuel h parts calls).history) ∧
      ∃ ext, (runTurns wf llm tc svcs fuel h parts calls).history = h ++ ext := by
  intro fuel
  induction fuel with
  | zero =>
    intro h parts calls hg
    exact ⟨hg, [], by simp [runTurns]⟩
  | succ n ih =>
    intro h parts calls hg
    simp only [runTurns]
    split
    · exact ⟨hg, [], by simp⟩
    · exact ⟨hg, [], by simp⟩
    · rename_i c tail tp heq
      have hcprop := H h tc (c :: tail) tp heq c (List.mem_cons_self c tail)
      have hgood1 : goodHistory (h ++ [c]) :=
        goodHistory_snoc h c hg (by rw [hcprop.2]; intro n hn; exact absurd hn (List.not_mem_nil n))
      split
      · rename_i turn hsc
        obtain ⟨p, hp, fc, hfcp, ht⟩ := scanParts_toolCall wf svcs c.parts [] turn hsc
        have hgood2 : goodHistory ((h ++ [c]) ++ [turn]) := by
          refine goodHistory_snoc _ _ hgood1 ?_
          rw [ht, frNames_handleToolCall]
          intro n hn
          rw [List.mem_singleton] at hn
          subst hn
          exact ⟨c, by simp, hcprop.1, fcNames_of_part c p fc hp hfcp⟩
        obtain ⟨hg2, ext, hext⟩ := ih ((h ++ [c]) ++ [turn]) parts (calls + 1) hgood2
        rw [List.append_assoc] at hext
        refine ⟨?_, [c] ++ ([turn] ++ ext), ?_⟩
        · simpa using hg2
        · simpa [List.append_assoc] using hext
      · exact ⟨hgood1, [c], rfl⟩

/-- C3: for any gateway whose candidates are model-role Turns without
function-response Parts, every conversation the orchestrator produces —
from any reachable loop state and for a whole query — satisfies the
ordering invariant: a function-response Turn is always preceded by an
earlier model Turn carrying the matching function call; moreover the loop
only ever appends to the conversation (the history at every later point
extends the earlier one), so Turns are never reordered. -/
theorem C3_function_response_ordering (llm : LLMOracle)
    (H : ∀ (h : List Content) (tcx : Option (List FunctionDecl)) (cands : List Content)
       (tp : Option String), llm h tcx = .ok cands tp →
       ∀ c ∈ cands, c.role = "model" ∧ frNames c = []) :
    (∀ (wf : String) (tc : Option (List FunctionDecl)) (services : List Service)
       (fuel : Nat) (h : List Content) (parts : List String) (calls : Nat),
      goodHistory h →
      goodHistory ((runTurns wf llm tc services fuel h parts calls).history) ∧
      ∃ ext, (runTurns wf llm tc services fuel h parts calls).history = h ++ ext) ∧
    (∀ (cfg : WorkflowConfig) (services : List Service) (q : String) (res : QueryResult),
      process_user_query cfg services llm q = .ok res → goodHistory res.history) := by
  constructor
  · intro wf tc services fuel h parts calls hg
    exact runTurns_good wf llm tc services H fuel h parts calls hg
  · intro cfg services q res hres
    unfold process_user_query at hres
    split at hres
    · injection hres with hres
      rw [← hres]
      exact goodHistory_nil
    · split at hres
      · exact absurd hres (by simp)
      · rename_i ip hip
        injection hres with hres
        rw [← hres]
        refine (runTurns_good cfg.workflow_name llm _ services H
          cfg.max_conversation_turns _ [] 0 ?_).1
        refine goodHistory_of_no_fr _ ?_
        intro c hcmem
        rw [List.mem_singleton] at hcmem
        subst hcmem
        rfl

/-- C3 witness: the invariant instantiated at a concrete oracle with the
hypotheses discharged. -/
theorem C3_function_response_ordering_witness :
    goodHistory ((runTurns "w" nullOracle none [] 1 [] [] 0).history) ∧
    ∃ ext, (runTurns "w" nullOracle none [] 1 [] [] 0).history = [] ++ ext := by
  have H0 : ∀ (h : List Content) (tcx : Option (List FunctionDecl)) (cands : List Content)
      (tp : Option String), nullOracle h tcx = .ok cands tp →
      ∀ c ∈ cands, c.role = "model" ∧ frNames c = [] := by
    intro h tcx cands tp heq c hcmem
    have h1 : cands = [] := by
      have heq2 : LLMResp.ok ([] : List Content) none = LLMResp.ok cands tp := heq
      injection heq2 with ha hb
      exact ha.symm
    subst h1
    exact absurd hcmem (List.not_mem_nil c)
  exact (C3_function_response_ordering nullOracle H0).1 "w" none [] 1 [] [] 0 goodHistory_nil

/-- One loop iteration in which the model returns a single candidate whose
Part scan finds no function call and at least one accumulated text: the
loop terminates, appending the texts (and the no-text marker only when
none of them has content). -/
theorem runTurns_terminal_step (wf : String) (llm : LLMOracle)
    (tc : Option (List FunctionDecl)) (svcs : List Service) (fuel : Nat)
    (h : List Content) (calls : Nat) (cturn : Content) (t1 : String)
    (trest : List String) (tp : Option String)
    (hllm : llm h tc = .ok [cturn] tp)
    (hscan : scanParts wf svcs cturn.parts [] = .terminal (t1 :: trest)) :
    runTurns wf llm tc svcs (fuel + 1) h [] calls =
      ⟨pyStrip (pyJoin (if anyNonWs (t1 :: trest) then t1 :: trest
                        else (t1 :: trest) ++ [noFurtherMarker])),
       h ++ [cturn], calls + 1⟩ := by
  simp only [runTurns]
  split
  · rename_i _e heq
    rw [hllm] at heq
    exact absurd heq (by simp)
  · rename_i tp2 heq
    rw [hllm] at heq
    simp at heq
  · rename_i c2 tail2 tp2 heq
    rw [hllm] at heq
    injection heq with h1 h2
    injection h1 with hc1 htail
    subst hc1
    subst htail
    subst h2
    rw [hscan]
    rfl

/-- C1 (corrected): only the text Parts of the terminal turn — the first
model response containing no function-call Part — reach the returned
answer.  In a run whose first response carries text `a` followed by a
function call and whose second response carries texts `b` and `c`, the
answer is the trimmed in-order concatenation of `b` and `c` alone; the
text `a` emitted in the function-call turn is discarded, whatever it is. -/
theorem C1_terminal_turn_text_only (a b c : String)
    (hb : pyStrip b ≠ "") (hc : pyStrip c ≠ "") :
    answerOf (process_user_query (mkCfg "{query}" ["s1"] 3) [toolService]
      (oracleAm a b c) "hi") = some (pyStrip (b ++ c)) := by
  have hb0 : b ≠ "" := fun h0 => hb (by rw [h0]; rfl)
  have hc0 : c ≠ "" := fun h0 => hc (by rw [h0]; rfl)
  have hscan : scanParts "w1" [toolService] [mkText b, mkText c] [] =
      ScanResult.terminal [b, c] := by
    simp [scanParts, mkText, hb0, hb, hc0, hc]
  have hany : anyNonWs [b, c] = true := by
    simp only [anyNonWs, List.any_cons, Bool.or_eq_true]
    exact Or.inl (bne_iff_ne.mpr hb)
  have hstep := runTurns_terminal_step "w1" (oracleAm a b c)
    (prepare_tools_for_llm [toolT]) [toolService] 1
    [⟨"user", [mkText "hi"]⟩, ⟨"model", [mkText a, mkCall "t" []]⟩,
     ⟨"user", [mkResp "t" [("output", Pyv.str "res")]]⟩] 1
    ⟨"model", [mkText b, mkText c]⟩ b [c] none rfl hscan
  show answerOf (Except.ok (runTurns "w1" (oracleAm a b c)
    (prepare_tools_for_llm [toolT]) [toolService] (1 + 1)
    [⟨"user", [mkText "hi"]⟩, ⟨"model", [mkText a, mkCall "t" []]⟩,
     ⟨"user", [mkResp "t" [("output", Pyv.str "res")]]⟩] [] 1)) =
    some (pyStrip (b ++ c))
  rw [hstep, hany]
  rfl

/-- C1 witness: a concrete instance of the corrected statement, with the
hypotheses on the terminal texts discharged by evaluation. -/
theorem C1_terminal_turn_text_only_witness :
    pyStrip "B " ≠ "" ∧ pyStrip "C" ≠ "" ∧
    answerOf (process_user_query (mkCfg "{query}" ["s1"] 3) [toolService]
      (oracleAm "A " "B " "C") "hi") = some (pyStrip ("B " ++ "C")) :=
  ⟨by decide, by decide,
    C1_terminal_turn_text_only "A " "B " "C" (by decide) (by decide)⟩

/-- C1 counterexample: with the non-whitespace text `A ` emitted in the
function-call turn and `B` in the terminal turn, the run returns `B`,
while the concatenation of all emitted text fragments trimmed — what the
claim promises — would be `A B`. -/
theorem C1_counterexample :
    answerOf (process_user_query (mkCfg "{query}" ["s1"] 3) [toolService]
      (oracleAm "A " "B" "") "hi") = some "B" ∧
    pyStrip (pyJoin ["A ", "B"]) = "A B" ∧
    ("B" : String) ≠ "A B" :=
  ⟨rfl, rfl, by decide⟩

/-- C9 (corrected): only a template on which formatting raises makes
`process_user_query` fail, and it then fails before any LLM call by
propagating the formatting error; a template that merely lacks the
`query` replacement field formats successfully (the query is silently
dropped), as the second conjunct shows on a concrete template, and the
third conjunct shows a genuinely raising template. -/
theorem C9_template_failure_boundary :
    (∀ (cfg : WorkflowConfig) (services : List Service) (llm : LLMOracle) (q e : String),
      (services.isEmpty && !cfg.mcp_servers_used.isEmpty) = false →
      pyFormat cfg.initial_prompt_template q = .error e →
      process_user_query cfg services llm q = .error e) ∧
    (∀ q : String, pyFormat "hello, how are you" q = .ok "hello, how are you") ∧
    pyFormat "{oops}" "hi" = .error "KeyError: \x27oops\x27" := by
  refine ⟨?_, fun q => rfl, rfl⟩
  intro cfg services llm q e hok hf
  simp [process_user_query, hok, hf]

/-- C9 witness: at a concrete configuration whose template holds an
unknown replacement field, formatting raises and the run fails with that
error before any LLM call. -/
theorem C9_template_failure_boundary_witness :
    ((([] : List Service).isEmpty && !(mkCfg "{oops}" [] 3).mcp_servers_used.isEmpty) = false) ∧
    pyFormat (mkCfg "{oops}" [] 3).initial_prompt_template "hi" = .error "KeyError: \x27oops\x27" ∧
    process_user_query (mkCfg "{oops}" [] 3) [] textOracle "hi" =
      .error "KeyError: \x27oops\x27" :=
  ⟨rfl, rfl,
    C9_template_failure_boundary.1 (mkCfg "{oops}" [] 3) [] textOracle "hi"
      "KeyError: \x27oops\x27" rfl rfl⟩

/-- C9 counterexample: a template without the `query` replacement field
does not fail at all — the run proceeds normally and returns the model
text, refuting the claim that such a spec fails with a TemplateError. -/
theorem C9_counterexample :
    process_user_query (mkCfg "hello, how are you" [] 3) [] textOracle "ignored" =
      .ok ⟨"hi", [⟨"user", [mkText "hello, how are you"]⟩, ⟨"model", [mkText "hi"]⟩], 1⟩ := rfl

/-- C2 (corrected): the returned string carries a bracketed marker for the
two gateway-level error conditions only.  A raising LLM call yields the
gateway-error marker as the whole (stripped) answer; zero candidates yield
the no-candidates marker; a failing tool invocation is recorded as an
`error`/`details` payload inside the appended function-response Turn, the
loop continues, and the returned string carries no marker for it. -/
theorem C2_error_marker_boundary :
    (∀ e : String,
      process_user_query (mkCfg "{query}" [] 3) [] (raiseOracle e) "hi" =
        .ok ⟨pyStrip (gatewayErrMarker "w1" e), [⟨"user", [mkText "hi"]⟩], 1⟩) ∧
    (process_user_query (mkCfg "{query}" [] 3) [] nullOracle "hi" =
      .ok ⟨"[AI model returned no response candidates.]", [⟨"user", [mkText "hi"]⟩], 1⟩) ∧
    (process_user_query (mkCfg "{query}" ["s1"] 3) [failService "boom" "tbx"] oracleFC "hi" =
      .ok ⟨"done",
        [⟨"user", [mkText "hi"]⟩, ⟨"model", [mkCall "t" []]⟩,
         ⟨"user", [mkResp "t" [("error", Pyv.str (toolExecErrMsg "t" "s1" "boom")),
                               ("details", Pyv.str "tbx")]]⟩,
         ⟨"model", [mkText "done"]⟩], 2⟩) :=
  ⟨fun _ => rfl, rfl, rfl⟩

/-- C2 counterexample: the model requests the unknown tool `missing`; the
tool-not-found condition is recorded only in the conversation payload,
and the returned answer `done` contains no bracket, refuting the claim
that every error condition leaves a marker in the returned string. -/
theorem C2_counterexample :
    process_user_query (mkCfg "{query}" ["s1"] 3) [toolService] oracleMissing "hi" =
      .ok ⟨"done",
        [⟨"user", [mkText "hi"]⟩, ⟨"model", [mkCall "missing" []]⟩,
         ⟨"user", [mkResp "missing" [("error", Pyv.str (toolNotFoundMsg "w1" "missing"))]]⟩,
         ⟨"model", [mkText "done"]⟩], 2⟩ ∧
    ("done".data.contains '[') = false :=
  ⟨rfl, by decide⟩

/-- C8 (corrected): wrapping of tool outcomes.  A string result becomes
the raw `output` payload, a mapping passes through unchanged, and any
other value is also wrapped raw as `output` (not via `str(value)`), as
the run with an arbitrary result value shows; a failing invocation yields
an `error` payload that also carries a `details` traceback entry, and the
loop continues to the next turn. -/
theorem C8_result_wrapping :
    (∀ s : String, wrapToolResult (Pyv.str s) = [("output", Pyv.str s)]) ∧
    (∀ m : List (String × Pyv), wrapToolResult (Pyv.dict m) = m) ∧
    (∀ v : Pyv,
      process_user_query (mkCfg "{query}" ["s1"] 3) [resultService v] oracleFC "hi" =
        .ok ⟨"done",
          [⟨"user", [mkText "hi"]⟩, ⟨"model", [mkCall "t" []]⟩,
           ⟨"user", [mkResp "t" (wrapToolResult v)]⟩,
           ⟨"model", [mkText "done"]⟩], 2⟩) ∧
    (∀ msg tb : String,
      process_user_query (mkCfg "{query}" ["s1"] 3) [failService msg tb] oracleFC "hi" =
        .ok ⟨"done",
          [⟨"user", [mkText "hi"]⟩, ⟨"model", [mkCall "t" []]⟩,
           ⟨"user", [mkResp "t" [("error", Pyv.str (toolExecErrMsg "t" "s1" msg)),
                                 ("details", Pyv.str tb)]]⟩,
           ⟨"model", [mkText "done"]⟩], 2⟩) :=
  ⟨fun _ => rfl, fun _ => rfl, fun _ => rfl, fun _ _ => rfl⟩

/-- C8 counterexample: a tool result that is neither a string nor a
mapping (`Pyv.other`, whose `str()` rendering is `res42`) is wrapped raw;
the claimed wrapping `output: str(value)` would instead be the string
payload, and the two differ. -/
theorem C8_counterexample :
    process_user_query (mkCfg "{query}" ["s1"] 3) [resultService (Pyv.other "res42")]
      oracleFC "hi" =
      .ok ⟨"done",
        [⟨"user", [mkText "hi"]⟩, ⟨"model", [mkCall "t" []]⟩,
         ⟨"user", [mkResp "t" [("output", Pyv.other "res42")]]⟩,
         ⟨"model", [mkText "done"]⟩], 2⟩ ∧
    ([("output", Pyv.other "res42")] : List (String × Pyv)) ≠
      [("output", Pyv.str "res42")] :=
  ⟨rfl, by simp⟩

/-- C5 witness: with services `a` (no tools), `b` and `c` (both declaring
tool `t`), resolution returns `b`, the first declarer, not `c`. -/
theorem C5_first_wins_resolution_witness :
    serviceDeclares svcB "t" = true ∧
    (∀ s0 ∈ [svcA], serviceDeclares s0 "t" = false) ∧
    findServiceForTool [svcA, svcB, svcC] "t" = some svcB := by
  refine ⟨rfl, ?_, ?_⟩
  · intro s0 hs
    rw [List.mem_singleton.mp hs]
    rfl
  · exact C5_first_wins_resolution.2 [svcA] svcB [svcC] "t" rfl
      (fun s0 hs => by rw [List.mem_singleton.mp hs]; rfl)

end MCP
